import Mathlib

/-!
Shallow embedding of the RSS aggregator (go-rss-agg, src/main.go) and proofs of
the specification claims.  Network fetches, the input file and the output file
system are passed in explicitly; timestamps are modelled as natural numbers.
-/

namespace RssAgg

/-- Go struct `Config` from src/main.go.  `Count` is a Go `int`, modelled as `Int`. -/
structure Config where
  inputFile  : String
  count      : Int
  mode       : String
  singleURL  : String
  outputFile : String
deriving Repr, DecidableEq

/-- `validateConfig` from src/main.go, returning the error message (or `none` on
success).  The branch structure mirrors the Go function: bad mode first, then the
mode-dependent required field, then the count check. -/
def validateConfig (c : Config) : Option String :=
  if c.mode ≠ "single" ∧ c.mode ≠ "all" then
    some "mode must be 'single' or 'all'"
  else if c.mode = "single" ∧ c.singleURL = "" then
    some "single-url must be provided when mode is 'single'"
  else if c.mode ≠ "single" ∧ c.inputFile = "" then
    some "input file must be provided when mode is 'all'"
  else if c.count ≤ 0 then
    some "count must be greater than 0"
  else
    none

/-- `rss.Item` as delivered by the external feed-parsing library (an opaque
capability per the spec): exactly the fields src/main.go reads.  `date` is the
already-resolved `Date` field. -/
structure RssEntry where
  title   : String
  link    : String
  summary : String
  content : String
  date    : Nat
deriving Repr, DecidableEq

/-- `feeds.Item` (gorilla/feeds), restricted to the fields src/main.go assigns.
`content = none` models the `Content` field never being assigned by
`fetchFeedItems`. -/
structure Item where
  title       : String
  link        : String
  description : String
  content     : Option String
  created     : Nat
deriving Repr, DecidableEq

/-- The per-entry mapping in the loop body of `fetchFeedItems`
(src/main.go lines 164-176): `Content` is assigned only when the source entry
carries non-empty content. -/
def mkFeedItem (e : RssEntry) : Item :=
  { title       := e.title
    link        := e.link
    description := e.summary
    created     := e.date
    content     := if e.content ≠ "" then some e.content else none }

/-- `fetchFeedItems` from src/main.go, with the `rss.Fetch` network-and-parse
step supplied as its result (an error, or the parsed entries). -/
def fetchFeedItems (fetched : Except String (List RssEntry)) :
    Except String (List Item) :=
  match fetched with
  | .error e => .error e
  | .ok entries => .ok (entries.map mkFeedItem)

/-- Go `strings.TrimSpace`: remove leading and trailing whitespace characters
(modelled over the string's character list). -/
def trimSpace (s : String) : String :=
  ⟨((s.data.dropWhile Char.isWhitespace).reverse.dropWhile
      Char.isWhitespace).reverse⟩

/-- Go `strings.HasPrefix(s, "#")`: whether the first character is `#`. -/
def startsWithHash (s : String) : Bool :=
  match s.data with
  | [] => false
  | c :: _ => c == '#'

/-- The scanner loop of `readURLsFromFile` (src/main.go lines 142-148): trim each
line, keep it when non-empty and not starting with `#`. -/
def scanURLLines : List String → List String
  | [] => []
  | l :: rest =>
    let line := trimSpace l
    if line ≠ "" ∧ ¬ startsWithHash line then line :: scanURLLines rest
    else scanURLLines rest

/-- `readURLsFromFile` from src/main.go; the file is supplied as an open error or
as its list of lines. -/
def readURLsFromFile (file : Except String (List String)) :
    Except String (List String) :=
  match file with
  | .error e => .error ("error opening file: " ++ e)
  | .ok lines => .ok (scanURLLines lines)

/-- The network, as seen by the program: each URL maps to the result of
`rss.Fetch` on it. -/
abbrev FetchWorld := String → Except String (List RssEntry)

/-- The all-mode fan-out of `aggregateFeeds` (src/main.go lines 98-112), with the
concurrent completion order modelled as URL order (claims proved from it do not
depend on that order): each successful fetch appends its items to the
accumulator, each failed fetch produces the warning log line naming the URL. -/
def fanOut (world : FetchWorld) : List String → List Item × List String
  | [] => ([], [])
  | url :: rest =>
    let tail := fanOut world rest
    match fetchFeedItems (world (trimSpace url)) with
    | .error e =>
        (tail.1, ("Warning: failed to fetch feed " ++ url ++ ": " ++ e) :: tail.2)
    | .ok items => (items ++ tail.1, tail.2)

/-- The ordering induced by the `sort.Slice` comparator in `aggregateFeeds`
(src/main.go line 116): item `a` may precede item `b` when `a.created` is no
older, i.e. `created` descending. -/
def moreRecent (a b : Item) : Prop := b.created ≤ a.created

instance : DecidableRel moreRecent :=
  fun a b => inferInstanceAs (Decidable (b.created ≤ a.created))

instance : IsTotal Item moreRecent := ⟨fun a b => Nat.le_total b.created a.created⟩

instance : IsTrans Item moreRecent :=
  ⟨fun _ _ _ hab hbc => Nat.le_trans hbc hab⟩

/-- The sort step (src/main.go lines 115-117).  `sort.Slice` is some permutation
sorted for the comparator; ties are unspecified, so any sorted permutation is a
faithful model. -/
def sortItems (l : List Item) : List Item := l.insertionSort moreRecent

/-- The truncation step (src/main.go lines 119-121): keep the first `count`
items when there are more than `count`. -/
def truncateItems (count : Int) (l : List Item) : List Item :=
  if count < (l.length : Int) then l.take count.toNat else l

/-- `feeds.Feed` (gorilla/feeds) restricted to the fields src/main.go sets;
the `Created: time.Now()` metadata field is not modelled. -/
structure AggFeed where
  title       : String
  link        : String
  description : String
  items       : List Item
deriving Repr, DecidableEq

/-- The final wrapping of `aggregateFeeds` (src/main.go lines 123-129). -/
def buildFeed (items : List Item) : AggFeed :=
  { title       := "RSS Aggregator Feed"
    link        := ""
    description := "Aggregated RSS feed"
    items       := items }

/-- `aggregateFeeds` from src/main.go.  Returns the Go result together with the
warning log lines printed during the run. -/
def aggregateFeeds (c : Config) (world : FetchWorld)
    (file : Except String (List String)) :
    Except String AggFeed × List String :=
  if c.mode = "single" then
    match fetchFeedItems (world c.singleURL) with
    | .error e => (.error ("error fetching single feed: " ++ e), [])
    | .ok items => (.ok (buildFeed (truncateItems c.count (sortItems items))), [])
  else
    match readURLsFromFile file with
    | .error e => (.error ("error reading input file: " ++ e), [])
    | .ok urls =>
      let fan := fanOut world urls
      (.ok (buildFeed (truncateItems c.count (sortItems fan.1))), fan.2)

/-- The combined multiset of items fetched during a run of `aggregateFeeds`,
before the sort and truncation steps (the `allItems` accumulator at line 115). -/
def fetchedItems (c : Config) (world : FetchWorld)
    (file : Except String (List String)) : List Item :=
  if c.mode = "single" then
    match fetchFeedItems (world c.singleURL) with
    | .error _ => []
    | .ok items => items
  else
    match readURLsFromFile file with
    | .error _ => []
    | .ok urls => (fanOut world urls).1

/-- Modelled from the spec: the external rss library's normalization of one wire
entry is not code of this repository; per the spec a Feed Item's `created` is the
"source feed's publication date or fetch-time fallback", so a wire entry carries
an optional publication date. -/
structure RawEntry where
  title   : String
  link    : String
  summary : String
  content : String
  pubDate : Option Nat
deriving Repr, DecidableEq

/-- Modelled from the spec: the external parser delivers each entry's fields
verbatim and resolves `date` to the publication date when the entry supplies
one, falling back to the fetch time otherwise. -/
def parseEntry (fetchTime : Nat) (raw : RawEntry) : RssEntry :=
  { title   := raw.title
    link    := raw.link
    summary := raw.summary
    content := raw.content
    date    := raw.pubDate.getD fetchTime }

/-- The observable effect of `outputFeed` on the destination file:
whether `os.Create` was invoked (creating/truncating the file), and the content
written when the write succeeded. -/
structure FsEffect where
  createdFile : Bool
  written     : Option String
deriving Repr, DecidableEq

/-- `outputFeed` from src/main.go: `feed.ToRss`, `os.Create` and the write are
supplied as their results, in the order the Go code performs them; the second
component records the effect on the destination file. -/
def outputFeed (toRss : Except String String)
    (createResult : Except String Unit) (writeOk : Bool) :
    Except String Unit × FsEffect :=
  match toRss with
  | .error e => (.error ("error generating RSS: " ++ e), ⟨false, none⟩)
  | .ok s =>
    match createResult with
    | .error e => (.error ("error creating output file: " ++ e), ⟨false, none⟩)
    | .ok _ =>
      if writeOk then (.ok (), ⟨true, some s⟩)
      else (.error "error writing to output file", ⟨true, none⟩)

/-! ### Claim theorems -/

/-- C10: if serializing the aggregated feed to RSS fails, `outputFeed` returns
the serialization error and the destination file is neither created nor
truncated, whatever the file operations would have done: `feed.ToRss` runs
before `os.Create`. -/
theorem outputFeed_serialization_error_leaves_fs_untouched
    (e : String) (createResult : Except String Unit) (writeOk : Bool) :
    outputFeed (.error e) createResult writeOk =
      (.error ("error generating RSS: " ++ e), ⟨false, none⟩) := rfl

/-- C7: `fetchFeedItems` sets an item's `content` field exactly when the source
entry carries non-empty content; otherwise the field is left absent, and in
particular it is never set to the empty string. -/
theorem mkFeedItem_content_absent_iff_empty (e : RssEntry) :
    (e.content ≠ "" → (mkFeedItem e).content = some e.content) ∧
    (e.content = "" → (mkFeedItem e).content = none) ∧
    (mkFeedItem e).content ≠ some "" := by
  by_cases h : e.content = "" <;> simp [mkFeedItem, h]

theorem mkFeedItem_content_witness :
    ((RssEntry.mk "t" "l" "s" "c" 3).content ≠ "" ∧
      (mkFeedItem (RssEntry.mk "t" "l" "s" "c" 3)).content = some "c") ∧
    ((RssEntry.mk "t" "l" "s" "" 3).content = "" ∧
      (mkFeedItem (RssEntry.mk "t" "l" "s" "" 3)).content = none) :=
  ⟨⟨by decide,
    (mkFeedItem_content_absent_iff_empty _).1 (by decide)⟩,
   ⟨rfl,
    (mkFeedItem_content_absent_iff_empty _).2.1 rfl⟩⟩

/-- C4: in single mode, a failing fetch of the single URL is fatal:
`aggregateFeeds` returns the fetch error and no aggregated feed. -/
theorem aggregateFeeds_single_fetch_error_fatal
    (c : Config) (world : FetchWorld) (file : Except String (List String))
    (e : String) (hm : c.mode = "single") (he : world c.singleURL = .error e) :
    aggregateFeeds c world file =
      (.error ("error fetching single feed: " ++ e), []) := by
  simp [aggregateFeeds, hm, fetchFeedItems, he]

theorem aggregateFeeds_single_fetch_error_witness :
    (Config.mk "" 5 "single" "u" "o").mode = "single" ∧
    (fun _ : String => (Except.error "down" : Except String (List RssEntry)))
        (Config.mk "" 5 "single" "u" "o").singleURL = .error "down" ∧
    aggregateFeeds (Config.mk "" 5 "single" "u" "o")
        (fun _ => .error "down") (.ok []) =
      (.error ("error fetching single feed: " ++ "down"), []) :=
  ⟨rfl, rfl,
    aggregateFeeds_single_fetch_error_fatal _ _ _ "down" rfl rfl⟩

/-- C6: `validateConfig` rejects a bad mode, an all-mode config with no input
file, and a non-positive count (with otherwise valid fields), each with the
specified message. -/
theorem validateConfig_rejections (c : Config) :
    (c.mode ≠ "single" ∧ c.mode ≠ "all" →
        validateConfig c = some "mode must be 'single' or 'all'") ∧
    (c.mode = "all" ∧ c.inputFile = "" →
        validateConfig c = some ("input file must be provided" ++
          " when mode is 'all'")) ∧
    (c.count ≤ 0 ∧
        (c.mode = "single" ∧ c.singleURL ≠ "" ∨
          c.mode = "all" ∧ c.inputFile ≠ "") →
        validateConfig c = some "count must be greater than 0") := by
  refine ⟨fun h => ?_, fun h => ?_, fun h => ?_⟩
  · simp [validateConfig, h.1, h.2]
  · simp [validateConfig, h.1, h.2]
  · rcases h with ⟨hc, h | h⟩ <;> simp [validateConfig, h.1, h.2, hc]

theorem validateConfig_rejections_witness :
    ((Config.mk "f" 1 "bogus" "" "o").mode ≠ "single" ∧
        (Config.mk "f" 1 "bogus" "" "o").mode ≠ "all" ∧
      validateConfig (Config.mk "f" 1 "bogus" "" "o") =
        some "mode must be 'single' or 'all'") ∧
    ((Config.mk "" 1 "all" "" "o").mode = "all" ∧
      validateConfig (Config.mk "" 1 "all" "" "o") =
        some ("input file must be provided" ++ " when mode is 'all'")) ∧
    ((Config.mk "f" 0 "all" "" "o").count ≤ 0 ∧
      validateConfig (Config.mk "f" 0 "all" "" "o") =
        some "count must be greater than 0") :=
  ⟨⟨by decide, by decide,
    (validateConfig_rejections _).1 ⟨by decide, by decide⟩⟩,
   ⟨rfl, (validateConfig_rejections _).2.1 ⟨rfl, rfl⟩⟩,
   ⟨by decide, (validateConfig_rejections _).2.2
      ⟨by decide, Or.inr ⟨rfl, by decide⟩⟩⟩⟩

/-- C9: `validateConfig` accepts exactly the configs whose mode is `single` or
`all`, whose mode-required field is non-empty and whose count is positive; the
field the selected mode does not require is never inspected, so a single-mode
config with an empty input file and an all-mode config with an empty single URL
are both accepted. -/
theorem validateConfig_acceptance :
    (∀ c : Config, validateConfig c = none ↔
      ((c.mode = "single" ∧ c.singleURL ≠ "") ∨
        (c.mode = "all" ∧ c.inputFile ≠ "")) ∧ 0 < c.count) ∧
    validateConfig (Config.mk "" 1 "single" "u" "o") = none ∧
    validateConfig (Config.mk "f" 1 "all" "" "o") = none := by
  refine ⟨fun c => ?_, by decide, by decide⟩
  by_cases hs : c.mode = "single" <;> by_cases ha : c.mode = "all" <;>
    by_cases hu : c.singleURL = "" <;> by_cases hf : c.inputFile = "" <;>
      simp [validateConfig, hs, ha, hu, hf]

lemma scanURLLines_eq_filter (lines : List String) :
    scanURLLines lines =
      (lines.map trimSpace).filter
        (fun l => decide (l ≠ "" ∧ ¬ startsWithHash l)) := by
  induction lines with
  | nil => rfl
  | cons l rest ih =>
    by_cases h : trimSpace l ≠ "" ∧ ¬ startsWithHash (trimSpace l) <;>
      simp [scanURLLines, List.filter_cons, h, ih]

/-- C5: `readURLsFromFile` on a readable file returns exactly the lines that,
once trimmed, are non-empty and do not start with `#`, each in trimmed form and
in file order (the filter of the trimmed lines); parsing is a pure function of
the lines, so parsing the same contents twice yields the same sequence, and no
blank or comment line is ever in the result. -/
theorem readURLsFromFile_lines (lines : List String) :
    readURLsFromFile (.ok lines) = .ok (scanURLLines lines) ∧
    scanURLLines lines =
      (lines.map trimSpace).filter
        (fun l => decide (l ≠ "" ∧ ¬ startsWithHash l)) ∧
    ∀ u ∈ scanURLLines lines, u ≠ "" ∧ ¬ startsWithHash u := by
  refine ⟨rfl, scanURLLines_eq_filter lines, fun u hu => ?_⟩
  rw [scanURLLines_eq_filter] at hu
  simpa using List.of_mem_filter hu

theorem readURLsFromFile_lines_witness :
    readURLsFromFile (.ok ["# c", " u ", ""]) =
      .ok (scanURLLines ["# c", " u ", ""]) ∧
    scanURLLines ["# c", " u ", ""] = ["u"] ∧
    "u" ∈ scanURLLines ["# c", " u ", ""] ∧
    ("u" ≠ "" ∧ ¬ startsWithHash "u") :=
  ⟨(readURLsFromFile_lines ["# c", " u ", ""]).1, by decide, by decide,
   (readURLsFromFile_lines ["# c", " u ", ""]).2.2 "u" (by decide)⟩

/-- C8: on a successful fetch, `fetchFeedItems` produces exactly one item per
parsed entry, in entry order, with `title`, `link`, `description` and `created`
taken from the entry's title, link, summary and date, where the (spec-modelled)
external parser resolved the date to the entry's publication date, falling back
to the fetch time when the entry supplies none. -/
theorem fetchFeedItems_entry_mapping (fetchTime : Nat) (raws : List RawEntry) :
    fetchFeedItems (.ok (raws.map (parseEntry fetchTime))) =
      .ok (raws.map (fun r => mkFeedItem (parseEntry fetchTime r))) ∧
    ∀ r : RawEntry,
      (mkFeedItem (parseEntry fetchTime r)).title = r.title ∧
      (mkFeedItem (parseEntry fetchTime r)).link = r.link ∧
      (mkFeedItem (parseEntry fetchTime r)).description = r.summary ∧
      (mkFeedItem (parseEntry fetchTime r)).created =
        (match r.pubDate with
          | some d => d
          | none => fetchTime) := by
  refine ⟨by simp [fetchFeedItems, List.map_map], fun r => ?_⟩
  refine ⟨rfl, rfl, rfl, ?_⟩
  cases h : r.pubDate <;> simp [mkFeedItem, parseEntry, h]

lemma sortItems_perm (l : List Item) : l.Perm (sortItems l) :=
  (List.perm_insertionSort moreRecent l).symm

lemma sortItems_pairwise (l : List Item) : (sortItems l).Pairwise moreRecent :=
  List.sorted_insertionSort moreRecent l

lemma truncateItems_pairwise (k : Int) (l : List Item)
    (h : l.Pairwise moreRecent) : (truncateItems k l).Pairwise moreRecent := by
  unfold truncateItems
  split
  · exact h.sublist (List.take_sublist _ _)
  · exact h

lemma truncate_sort_spec (k : Int) (hk : 0 < k) (l : List Item) :
    (truncateItems k (sortItems l)).length = min l.length k.toNat ∧
    ∃ rest : List Item,
      l.Perm (truncateItems k (sortItems l) ++ rest) ∧
      ∀ x ∈ truncateItems k (sortItems l), ∀ y ∈ rest,
        y.created ≤ x.created := by
  have hperm : l.Perm (sortItems l) := sortItems_perm l
  have hlen : (sortItems l).length = l.length := hperm.length_eq.symm
  by_cases h : k < ((sortItems l).length : Int)
  · rw [truncateItems, if_pos h]
    rw [hlen] at h
    refine ⟨?_, (sortItems l).drop k.toNat, ?_, ?_⟩
    · rw [List.length_take, hlen]
      omega
    · rw [List.take_append_drop]
      exact hperm
    · have hp := sortItems_pairwise l
      rw [← List.take_append_drop k.toNat (sortItems l)] at hp
      exact fun x hx y hy => (List.pairwise_append.mp hp).2.2 x hx y hy
  · rw [truncateItems, if_neg h]
    rw [hlen] at h
    refine ⟨?_, [], ?_, ?_⟩
    · rw [hlen]
      omega
    · simpa using hperm
    · simp

lemma aggregateFeeds_ok_items (c : Config) (world : FetchWorld)
    (file : Except String (List String)) (feed : AggFeed) (logs : List String)
    (hok : aggregateFeeds c world file = (.ok feed, logs)) :
    feed.items =
      truncateItems c.count (sortItems (fetchedItems c world file)) := by
  by_cases hm : c.mode = "single"
  · cases hE : fetchFeedItems (world c.singleURL) with
    | error e => simp [aggregateFeeds, hm, hE] at hok
    | ok items =>
      simp [aggregateFeeds, hm, hE, Prod.ext_iff] at hok
      rw [fetchedItems, if_pos hm, hE, ← hok.1]
      rfl
  · cases hF : readURLsFromFile file with
    | error e => simp [aggregateFeeds, hm, hF] at hok
    | ok urls =>
      simp [aggregateFeeds, hm, hF, Prod.ext_iff] at hok
      rw [fetchedItems, if_neg hm, hF, ← hok.1]
      rfl

/-- C1: in every run of `aggregateFeeds` that returns a feed, with `count = k`
positive and `N` the number of items fetched, the feed holds exactly
`min N k` items, and they are the `k` most recent of the `N` fetched items:
the rest of the fetched items all have timestamps no newer than any kept item
(ties broken arbitrarily). -/
theorem aggregateFeeds_truncation_law (c : Config) (world : FetchWorld)
    (file : Except String (List String)) (feed : AggFeed) (logs : List String)
    (hk : 0 < c.count) (hok : aggregateFeeds c world file = (.ok feed, logs)) :
    feed.items.length = min (fetchedItems c world file).length c.count.toNat ∧
    ∃ rest : List Item,
      (fetchedItems c world file).Perm (feed.items ++ rest) ∧
      ∀ x ∈ feed.items, ∀ y ∈ rest, y.created ≤ x.created := by
  rw [aggregateFeeds_ok_items c world file feed logs hok]
  exact truncate_sort_spec c.count hk (fetchedItems c world file)

def c1Config : Config := Config.mk "" 2 "single" "u" "o"

def c1World : FetchWorld :=
  fun _ => .ok [RssEntry.mk "a" "" "" "" 5, RssEntry.mk "b" "" "" "" 9,
    RssEntry.mk "c" "" "" "" 1]

def c1Feed : AggFeed :=
  buildFeed [Item.mk "b" "" "" none 9, Item.mk "a" "" "" none 5]

theorem aggregateFeeds_truncation_law_witness :
    0 < c1Config.count ∧
    aggregateFeeds c1Config c1World (.ok []) = (.ok c1Feed, []) ∧
    (c1Feed.items.length =
        min (fetchedItems c1Config c1World (.ok [])).length
          c1Config.count.toNat ∧
      ∃ rest : List Item,
        (fetchedItems c1Config c1World (.ok [])).Perm (c1Feed.items ++ rest) ∧
        ∀ x ∈ c1Feed.items, ∀ y ∈ rest, y.created ≤ x.created) :=
  ⟨by decide, by rfl,
    aggregateFeeds_truncation_law c1Config c1World (.ok []) c1Feed []
      (by decide) (by rfl)⟩

/-- C2: every feed returned by `aggregateFeeds` has its item sequence sorted by
`created` non-increasing: each item's timestamp is at least its successor's. -/
theorem aggregateFeeds_sorted_descending (c : Config) (world : FetchWorld)
    (file : Except String (List String)) (feed : AggFeed) (logs : List String)
    (hok : aggregateFeeds c world file = (.ok feed, logs))
    (i : Nat) (h : i + 1 < feed.items.length) :
    (feed.items.get ⟨i + 1, h⟩).created ≤
      (feed.items.get ⟨i, Nat.lt_of_succ_lt h⟩).created := by
  have hp : feed.items.Pairwise moreRecent := by
    rw [aggregateFeeds_ok_items c world file feed logs hok]
    exact truncateItems_pairwise _ _ (sortItems_pairwise _)
  exact List.pairwise_iff_get.mp hp ⟨i, Nat.lt_of_succ_lt h⟩ ⟨i + 1, h⟩
    (Nat.lt_succ_self i)

def c2Config : Config := Config.mk "" 5 "single" "u" "o"

def c2World : FetchWorld :=
  fun _ => .ok [RssEntry.mk "a" "" "" "" 1, RssEntry.mk "b" "" "" "" 9]

def c2Feed : AggFeed :=
  buildFeed [Item.mk "b" "" "" none 9, Item.mk "a" "" "" none 1]

theorem aggregateFeeds_sorted_descending_witness :
    aggregateFeeds c2Config c2World (.ok []) = (.ok c2Feed, []) ∧
    0 + 1 < c2Feed.items.length ∧
    (c2Feed.items.get ⟨0 + 1, by decide⟩).created ≤
      (c2Feed.items.get ⟨0, by decide⟩).created :=
  ⟨by rfl, by decide,
    aggregateFeeds_sorted_descending c2Config c2World (.ok []) c2Feed []
      (by rfl) 0 (by decide)⟩

lemma truncateItems_sort_subperm (k : Int) (l : List Item) :
    List.Subperm (truncateItems k (sortItems l)) l := by
  have hperm : (sortItems l).Perm l := List.perm_insertionSort moreRecent l
  unfold truncateItems
  split
  · exact (List.take_sublist _ _).subperm.trans hperm.subperm
  · exact hperm.subperm

lemma fanOut_log_of_error (world : FetchWorld) :
    ∀ (urls : List String) (url e : String), url ∈ urls →
      fetchFeedItems (world (trimSpace url)) = .error e →
      ("Warning: failed to fetch feed " ++ url ++ ": " ++ e) ∈
        (fanOut world urls).2
  | u :: rest, url, e, hmem, he => by
    rcases List.mem_cons.mp hmem with h | h
    · subst h
      simp [fanOut, he]
    · cases hE : fetchFeedItems (world (trimSpace u)) with
      | error e2 =>
        simp only [fanOut, hE, List.mem_cons]
        exact Or.inr (fanOut_log_of_error world rest url e h he)
      | ok items =>
        simp only [fanOut, hE]
        exact fanOut_log_of_error world rest url e h he

lemma fanOut_items_nil_of_all_fail (world : FetchWorld) :
    ∀ urls : List String,
      (∀ url ∈ urls, ∃ e, fetchFeedItems (world (trimSpace url)) = .error e) →
      (fanOut world urls).1 = []
  | [], _ => rfl
  | u :: rest, hall => by
    obtain ⟨e, he⟩ := hall u (List.mem_cons_self u rest)
    simp only [fanOut, he]
    exact fanOut_items_nil_of_all_fail world rest
      (fun url hu => hall url (List.mem_cons_of_mem u hu))

/-- C3: with mode `all` and a readable input file, `aggregateFeeds` never
returns an error because of a per-feed fetch failure: it returns a feed drawn
from the items of the feeds that succeeded, every failing fetch contributes a
warning log line naming its URL, and when every feed fails the result is an
empty aggregated feed rather than an error. -/
theorem aggregateFeeds_all_mode_tolerates_fetch_failures (c : Config)
    (world : FetchWorld) (lines : List String) (hm : c.mode = "all") :
    ∃ feed logs,
      aggregateFeeds c world (.ok lines) = (.ok feed, logs) ∧
      List.Subperm feed.items (fanOut world (scanURLLines lines)).1 ∧
      (∀ url ∈ scanURLLines lines, ∀ e,
        fetchFeedItems (world (trimSpace url)) = .error e →
        ("Warning: failed to fetch feed " ++ url ++ ": " ++ e) ∈ logs) ∧
      ((∀ url ∈ scanURLLines lines, ∃ e,
          fetchFeedItems (world (trimSpace url)) = .error e) →
        feed.items = []) := by
  have hm2 : c.mode ≠ "single" := by rw [hm]; decide
  refine ⟨buildFeed (truncateItems c.count
      (sortItems (fanOut world (scanURLLines lines)).1)),
    (fanOut world (scanURLLines lines)).2, ?_, ?_, ?_, ?_⟩
  · simp [aggregateFeeds, hm2, readURLsFromFile]
  · exact truncateItems_sort_subperm c.count _
  · exact fun url hu e he => fanOut_log_of_error world _ url e hu he
  · intro hall
    rw [buildFeed]
    simp [fanOut_items_nil_of_all_fail world _ hall, sortItems, truncateItems]

theorem aggregateFeeds_all_mode_witness :
    (Config.mk "f" 5 "all" "" "o").mode = "all" ∧
    ∃ feed logs,
      aggregateFeeds (Config.mk "f" 5 "all" "" "o")
          (fun _ => .error "down") (.ok ["u"]) = (.ok feed, logs) ∧
      List.Subperm feed.items
        (fanOut (fun _ => .error "down") (scanURLLines ["u"])).1 ∧
      (∀ url ∈ scanURLLines ["u"], ∀ e,
        fetchFeedItems ((fun _ : String =>
          (Except.error "down" : Except String (List RssEntry)))
            (trimSpace url)) = .error e →
        ("Warning: failed to fetch feed " ++ url ++ ": " ++ e) ∈ logs) ∧
      ((∀ url ∈ scanURLLines ["u"], ∃ e,
          fetchFeedItems ((fun _ : String =>
            (Except.error "down" : Except String (List RssEntry)))
              (trimSpace url)) = .error e) →
        feed.items = []) :=
  ⟨rfl, aggregateFeeds_all_mode_tolerates_fetch_failures
    (Config.mk "f" 5 "all" "" "o") (fun _ => .error "down") ["u"] rfl⟩

end RssAgg
